import Mathlib

/-!
Verification of the trade-enrichment ELT pipeline.

The development embeds, as Lean functions over `ℚ` and `Option ℚ`:

* `calculate_realized_pnl` — the pure P&L engine of
  `src/python/sp_transform_trades.py` (lines 33–74);
* the SQL column expressions for `REALIZED_PNL` and `IS_CLOSING` built by
  `main` in the same file (lines 131–156), with SQL NULL propagation and
  three-valued `when` conditions made explicit;
* the position-deduplication (`.distinct()`) and left-join logic of `main`
  (lines 100–158), including the row count and status string (lines 160–169);
* the aggregation rebuild of `src/python/sp_enrich_trades.py`.

Numeric columns are modelled by `ℚ` (the Python code uses floats but every
claim is an exact algebraic identity; the spec's numeric-semantics clause
asks for decimal/fixed-scale arithmetic). Nullable columns are `Option ℚ`.
-/

namespace TradingLab

/-- Embedding of `calculate_realized_pnl` from `sp_transform_trades.py`.
`position_qty` and `avg_cost` are `Option ℚ` mirroring Python's
`None`-able parameters; the `None` check on line 57 comes first, then the
SELL-long and BUY-short branches. -/
def calculate_realized_pnl (side : String) (quantity price : ℚ)
    (position_qty avg_cost : Option ℚ) : ℚ × Bool :=
  match position_qty, avg_cost with
  | some pq, some ac =>
    if side = "SELL" ∧ 0 < pq then
      (min quantity pq * (price - ac), true)
    else if side = "BUY" ∧ pq < 0 then
      (min quantity |pq| * (ac - price), true)
    else
      (0, false)
  | _, _ => (0, false)

/-- C1: for every SELL trade against a long position (position_qty > 0,
avg_cost present), the engine flags the trade as closing and realizes
min(quantity, position_qty) * (price - avg_cost). -/
theorem C1_sell_closes_long (quantity price pq ac : ℚ) (hpq : 0 < pq) :
    calculate_realized_pnl "SELL" quantity price (some pq) (some ac)
      = (min quantity pq * (price - ac), true) := by
  simp [calculate_realized_pnl, hpq]

theorem C1_sell_closes_long_witness :
    calculate_realized_pnl "SELL" 100 185 (some 100) (some 180) = (500, true) := by
  have h := C1_sell_closes_long 100 185 100 180 (by norm_num)
  rw [h]
  norm_num

/-- C2: for every BUY trade against a short position (position_qty < 0,
avg_cost present), the engine flags the trade as closing and realizes
min(quantity, abs(position_qty)) * (avg_cost - price). -/
theorem C2_buy_closes_short (quantity price pq ac : ℚ) (hpq : pq < 0) :
    calculate_realized_pnl "BUY" quantity price (some pq) (some ac)
      = (min quantity |pq| * (ac - price), true) := by
  simp [calculate_realized_pnl, hpq]

theorem C2_buy_closes_short_witness :
    calculate_realized_pnl "BUY" 100 185 (some (-100)) (some 190) = (500, true) := by
  have h := C2_buy_closes_short 100 185 (-100) 190 (by norm_num)
  rw [h]
  norm_num

/-- C3: for every trade, if position_qty or avg_cost is absent the engine
returns exactly (0, false). -/
theorem C3_absent_position (side : String) (quantity price : ℚ)
    (position_qty avg_cost : Option ℚ)
    (h : position_qty = none ∨ avg_cost = none) :
    calculate_realized_pnl side quantity price position_qty avg_cost
      = (0, false) := by
  rcases h with h | h
  · subst h; cases avg_cost <;> rfl
  · subst h; cases position_qty <;> rfl

theorem C3_absent_position_witness :
    calculate_realized_pnl "SELL" 100 185 none (some 180) = (0, false) :=
  C3_absent_position "SELL" 100 185 none (some 180) (Or.inl rfl)

/-- C4: every non-closing trade with a known position — a BUY with
position_qty ≥ 0 or a SELL with position_qty ≤ 0, the flat case included —
yields exactly (0, false) regardless of quantity, price and avg_cost. -/
theorem C4_non_closing (side : String) (quantity price pq ac : ℚ)
    (h : (side = "BUY" ∧ 0 ≤ pq) ∨ (side = "SELL" ∧ pq ≤ 0)) :
    calculate_realized_pnl side quantity price (some pq) (some ac)
      = (0, false) := by
  rcases h with ⟨hs, hq⟩ | ⟨hs, hq⟩ <;> subst hs <;>
    simp [calculate_realized_pnl, not_lt.mpr hq]

theorem C4_non_closing_witness :
    calculate_realized_pnl "SELL" 100 185 (some 0) (some 180) = (0, false) :=
  C4_non_closing "SELL" 100 185 0 180 (Or.inr ⟨rfl, le_refl 0⟩)

/-- C9: a trade of quantity 0 against a nonzero position of the correct
sign (SELL while long, or BUY while short, avg_cost present) is classified
closing with realized P&L equal to 0. -/
theorem C9_zero_quantity (price pq ac : ℚ) (side : String)
    (h : (side = "SELL" ∧ 0 < pq) ∨ (side = "BUY" ∧ pq < 0)) :
    calculate_realized_pnl side 0 price (some pq) (some ac) = (0, true) := by
  rcases h with ⟨hs, hq⟩ | ⟨hs, hq⟩ <;> subst hs
  · simp [calculate_realized_pnl, hq, min_eq_left (le_of_lt hq)]
  · simp [calculate_realized_pnl, hq, min_eq_left (abs_nonneg pq)]

theorem C9_zero_quantity_witness :
    calculate_realized_pnl "SELL" 0 185 (some 100) (some 180) = (0, true) :=
  C9_zero_quantity 185 100 180 "SELL" (Or.inl ⟨rfl, by norm_num⟩)

/-- C10: for every side string other than exactly "BUY" or "SELL", the
engine returns (0, false) whatever the quantity, price and position are;
in particular it is total over arbitrary side strings. -/
theorem C10_other_sides (side : String) (quantity price : ℚ)
    (position_qty avg_cost : Option ℚ)
    (hb : side ≠ "BUY") (hs : side ≠ "SELL") :
    calculate_realized_pnl side quantity price position_qty avg_cost
      = (0, false) := by
  cases position_qty with
  | none => rfl
  | some pq =>
    cases avg_cost with
    | none => rfl
    | some ac => simp [calculate_realized_pnl, hb, hs]

theorem C10_other_sides_witness :
    calculate_realized_pnl "sell" 100 185 (some 100) (some 180) = (0, false) :=
  C10_other_sides "sell" 100 185 (some 100) (some 180)
    (by decide) (by decide)

/-!
SQL expression model. The `REALIZED_PNL` and `IS_CLOSING` columns of
`sp_transform_trades.py` `main` (lines 131–156) are `when`/`otherwise`
chains over nullable columns. SQL comparisons against NULL yield NULL, and
a `when` whose condition is NULL (or whose conjunct makes the AND NULL) is
not taken — exactly as if the condition were false — so the conditions are
modelled as `Bool` with NULL comparisons returning `false`. Arithmetic
(`-`, `*`, `abs`) propagates NULL and is modelled on `Option ℚ`.
-/

/-- SQL strict greater-than on nullable operands, as used in a `when`
condition: NULL on either side means the branch is not taken. -/
def sqlGt : Option ℚ → Option ℚ → Bool
  | some a, some b => decide (b < a)
  | _, _ => false

/-- SQL strict less-than on nullable operands, as used in a `when`
condition: NULL on either side means the branch is not taken. -/
def sqlLt : Option ℚ → Option ℚ → Bool
  | some a, some b => decide (a < b)
  | _, _ => false

/-- SQL subtraction with NULL propagation. -/
def sqlSub : Option ℚ → Option ℚ → Option ℚ
  | some a, some b => some (a - b)
  | _, _ => none

/-- SQL multiplication with NULL propagation. -/
def sqlMul : Option ℚ → Option ℚ → Option ℚ
  | some a, some b => some (a * b)
  | _, _ => none

/-- SQL ABS with NULL propagation (the `sf_abs` import). -/
def sqlAbs : Option ℚ → Option ℚ :=
  Option.map (fun a => |a|)

/-- Embedding of the inner chain `when(QUANTITY < x, QUANTITY).otherwise(x)`
computing the closed quantity (lines 135–137 and 143–145). -/
def sqlCaseMin (q x : Option ℚ) : Option ℚ :=
  if sqlLt q x then q else x

/-- Embedding of the `REALIZED_PNL` column expression (lines 131–148):
`when(SIDE = 'SELL' and POSITION_QTY > 0, (PRICE - AVG_COST) * closedQty)`
then the BUY/short branch, `otherwise(0.0)`. `SIDE`, `QUANTITY`, `PRICE`
come from the trade row and are non-null. -/
def sql_REALIZED_PNL (side : String) (quantity price : ℚ)
    (position_qty avg_cost : Option ℚ) : Option ℚ :=
  if side == "SELL" && sqlGt position_qty (some 0) then
    sqlMul (sqlSub (some price) avg_cost) (sqlCaseMin (some quantity) position_qty)
  else if side == "BUY" && sqlLt position_qty (some 0) then
    sqlMul (sqlSub avg_cost (some price)) (sqlCaseMin (some quantity) (sqlAbs position_qty))
  else
    some 0

/-- Embedding of the `IS_CLOSING` column expression (lines 150–156):
`when((SIDE = 'SELL' and POSITION_QTY > 0) or (SIDE = 'BUY' and
POSITION_QTY < 0), true).otherwise(false)`. -/
def sql_IS_CLOSING (side : String) (position_qty : Option ℚ) : Bool :=
  (side == "SELL" && sqlGt position_qty (some 0))
    || (side == "BUY" && sqlLt position_qty (some 0))

/-- Writing an `if _ < _` chain as a `min`. -/
theorem ite_lt_eq_min (a b : ℚ) : (if a < b then a else b) = min a b := by
  rcases le_or_lt b a with h | h
  · rw [min_eq_right h, if_neg (not_lt.mpr h)]
  · rw [min_eq_left (le_of_lt h), if_pos h]

/-- C6 counterexample: on a row with SIDE = SELL, QUANTITY = 50,
PRICE = 185, POSITION_QTY = 100 and AVG_COST NULL, the SQL expressions
yield (NULL, true) while `calculate_realized_pnl` yields (0, false), so
the SQL columns do not always agree with the pure function. -/
theorem C6_counterexample :
    ¬ (sql_REALIZED_PNL "SELL" 50 185 (some 100) none
         = some (calculate_realized_pnl "SELL" 50 185 (some 100) none).1
       ∧ sql_IS_CLOSING "SELL" (some 100)
         = (calculate_realized_pnl "SELL" 50 185 (some 100) none).2) := by
  intro h
  have h1 := h.1
  rw [show calculate_realized_pnl "SELL" 50 185 (some 100) none
      = (0, false) from rfl] at h1
  have h2 : sql_REALIZED_PNL "SELL" 50 185 (some 100) none = none := by
    norm_num [sql_REALIZED_PNL, sqlGt, sqlSub, sqlMul, sqlCaseMin, sqlLt]
  rw [h2] at h1
  exact Option.noConfusion h1

/-- C6 (amended): for every joined row in which AVG_COST is present, or in
which the SQL IS_CLOSING flag is false (the position is absent or the
trade is not in the closing direction), the SQL column expressions for
REALIZED_PNL and IS_CLOSING compute the same pair as
`calculate_realized_pnl` on that row; the only excluded case is a
closing-direction trade with POSITION_QTY present and AVG_COST NULL,
where SQL yields (NULL, true) and the function yields (0, false). -/
theorem C6_sql_matches_engine (side : String) (quantity price : ℚ)
    (position_qty avg_cost : Option ℚ)
    (h : avg_cost.isSome = true ∨ sql_IS_CLOSING side position_qty = false) :
    sql_REALIZED_PNL side quantity price position_qty avg_cost
        = some (calculate_realized_pnl side quantity price position_qty avg_cost).1
      ∧ sql_IS_CLOSING side position_qty
        = (calculate_realized_pnl side quantity price position_qty avg_cost).2 := by
  cases position_qty with
  | none =>
    cases avg_cost <;>
      simp [sql_REALIZED_PNL, sql_IS_CLOSING, sqlGt, sqlLt,
        calculate_realized_pnl]
  | some p =>
    cases avg_cost with
    | some a =>
      by_cases hp : 0 < p
      · by_cases hS : side = "SELL"
        · subst hS
          constructor
          · simp [sql_REALIZED_PNL, sqlGt, sqlLt, sqlSub, sqlMul,
              sqlCaseMin, hp, not_lt.mpr (le_of_lt hp),
              calculate_realized_pnl, ← apply_ite some, ite_lt_eq_min,
              mul_comm]
          · simp [sql_IS_CLOSING, sqlGt, sqlLt, hp,
              not_lt.mpr (le_of_lt hp), calculate_realized_pnl]
        · have hB : ¬ (side = "BUY" ∧ p < 0) := by
            rintro ⟨-, hc⟩; exact absurd hp (not_lt.mpr (le_of_lt hc))
          constructor
          · simp [sql_REALIZED_PNL, sqlGt, sqlLt, hS,
              not_lt.mpr (le_of_lt hp), calculate_realized_pnl, hB]
          · simp [sql_IS_CLOSING, sqlGt, sqlLt, hS,
              not_lt.mpr (le_of_lt hp), calculate_realized_pnl, hB]
      · by_cases hn : p < 0
        · by_cases hB : side = "BUY"
          · subst hB
            constructor
            · simp [sql_REALIZED_PNL, sqlGt, sqlLt, sqlSub, sqlMul,
                sqlCaseMin, sqlAbs, hn, hp, calculate_realized_pnl,
                ← apply_ite some, ite_lt_eq_min, mul_comm]
            · simp [sql_IS_CLOSING, sqlGt, sqlLt, hn, hp,
                calculate_realized_pnl]
          · constructor
            · simp [sql_REALIZED_PNL, sqlGt, sqlLt, hB, hp,
                calculate_realized_pnl, hn]
            · simp [sql_IS_CLOSING, sqlGt, sqlLt, hB, hp,
                calculate_realized_pnl, hn]
        · constructor
          · simp [sql_REALIZED_PNL, sqlGt, sqlLt, hp, hn,
              calculate_realized_pnl]
          · simp [sql_IS_CLOSING, sqlGt, sqlLt, hp, hn,
              calculate_realized_pnl]
    | none =>
      rcases h with h | h
      · exact absurd h (by simp)
      · have hS : ¬ (side = "SELL" ∧ sqlGt (some p) (some 0) = true) := by
          intro hc
          simp [sql_IS_CLOSING, hc.1, hc.2] at h
        have hB : ¬ (side = "BUY" ∧ sqlLt (some p) (some 0) = true) := by
          intro hc
          simp [sql_IS_CLOSING, hc.1, hc.2] at h
        constructor
        · by_cases h1 : side = "SELL"
          · have hp : ¬ 0 < p := by
              intro hc; exact hS ⟨h1, by simp [sqlGt, hc]⟩
            simp [sql_REALIZED_PNL, sqlGt, sqlLt, h1, hp,
              calculate_realized_pnl]
          · by_cases h2 : side = "BUY"
            · have hp : ¬ p < 0 := by
                intro hc; exact hB ⟨h2, by simp [sqlLt, hc]⟩
              simp [sql_REALIZED_PNL, sqlGt, sqlLt, h1, h2, hp,
                calculate_realized_pnl]
            · simp [sql_REALIZED_PNL, sqlGt, sqlLt, h1, h2,
                calculate_realized_pnl]
        · rw [h]
          rfl

theorem C6_sql_matches_engine_witness :
    sql_REALIZED_PNL "SELL" 100 185 (some 100) (some 180)
        = some (calculate_realized_pnl "SELL" 100 185 (some 100) (some 180)).1
      ∧ sql_IS_CLOSING "SELL" (some 100)
        = (calculate_realized_pnl "SELL" 100 185 (some 100) (some 180)).2 :=
  C6_sql_matches_engine "SELL" 100 185 (some 100) (some 180) (Or.inl rfl)

/-!
Pipeline model for `main` of `sp_transform_trades.py`. Rows are records of
the columns the procedure reads; timestamps are modelled as natural
numbers (seconds), and `to_date` as the day number. The stream, position
table and sink are lists of rows.
-/

/-- Row of `TRADING_LAB_DB.RAW.TRADES_RAW_STREAM` (the columns `main`
selects). -/
structure TradeRow where
  trade_id : String
  symbol : String
  side : String
  quantity : ℚ
  price : ℚ
  execution_ts : ℕ
  account_id : String
  venue : String
  trader_id : String
  order_id : String
  deriving DecidableEq, Repr

/-- Row of `TRADING_LAB_DB.RAW.POSITIONS_RAW` (the columns `main` touches,
plus the as-of timestamp the spec's Position Index talks about; the SQL
column `AVG_COST` is nullable). -/
structure PositionRow where
  account_id : String
  symbol : String
  quantity : ℚ
  avg_cost : Option ℚ
  as_of : ℕ
  deriving DecidableEq, Repr

/-- Row of the `latest_positions` dataframe (lines 101–106): the
projection to ACCOUNT_ID, SYMBOL, QUANTITY as POSITION_QTY, AVG_COST. -/
structure PosKeyRow where
  account_id : String
  symbol : String
  position_qty : ℚ
  avg_cost : Option ℚ
  deriving DecidableEq, Repr

/-- The `select` projection feeding `.distinct()` (lines 101–106). Note it
drops the as-of timestamp. -/
def projPosition (p : PositionRow) : PosKeyRow :=
  ⟨p.account_id, p.symbol, p.quantity, p.avg_cost⟩

/-- Embedding of the `latest_positions` dataframe: project then
`.distinct()`, which removes exact duplicate rows only (modelled by
`List.dedup`, keeping the first occurrence of each distinct row). -/
def latest_positions (positions : List PositionRow) : List PosKeyRow :=
  (positions.map projPosition).dedup

/-- Row of `TRADING_LAB_DB.STAGE.TRADES_ENRICHED` as assembled by the
`select` on lines 114–158. -/
structure EnrichedRow where
  trade_id : String
  symbol : String
  side : String
  quantity : ℚ
  price : ℚ
  notional_value : ℚ
  execution_ts : ℕ
  execution_date : ℕ
  account_id : String
  venue : String
  trader_id : String
  order_id : String
  position_qty : Option ℚ
  avg_cost : Option ℚ
  realized_pnl : Option ℚ
  is_closing : Bool
  processed_at : ℕ
  deriving DecidableEq, Repr

/-- Model of SQL `to_date` on a seconds timestamp: the day number. -/
def to_date (ts : ℕ) : ℕ :=
  ts / 86400

/-- Assembly of one output row of the `select` (lines 114–158) from a
trade row and the nullable position columns delivered by the left join;
`now` stands for `current_timestamp()`. -/
def enrichRow (t : TradeRow) (pq ac : Option ℚ) (now : ℕ) : EnrichedRow :=
  { trade_id := t.trade_id
    symbol := t.symbol
    side := t.side
    quantity := t.quantity
    price := t.price
    notional_value := t.quantity * t.price
    execution_ts := t.execution_ts
    execution_date := to_date t.execution_ts
    account_id := t.account_id
    venue := t.venue
    trader_id := t.trader_id
    order_id := t.order_id
    position_qty := pq
    avg_cost := ac
    realized_pnl := sql_REALIZED_PNL t.side t.quantity t.price pq ac
    is_closing := sql_IS_CLOSING t.side pq
    processed_at := now }

/-- Embedding of the left join on ACCOUNT_ID and SYMBOL (lines 109–113):
each trade row is paired with every matching `latest_positions` row, or
with NULL position columns when no row matches. -/
def joinEnrich (now : ℕ) : List TradeRow → List PosKeyRow → List EnrichedRow
  | [], _ => []
  | t :: ts, ps =>
    (let ms := ps.filter fun p =>
        p.account_id == t.account_id && p.symbol == t.symbol
     if ms.isEmpty then [enrichRow t none none now]
     else ms.map fun p => enrichRow t (some p.position_qty) p.avg_cost now)
      ++ joinEnrich now ts ps

/-- The status string of line 169. -/
def mkStatus (n : ℕ) : String :=
  "TRADES_ENRICHED: " ++ toString n ++ " rows processed"

/-- Embedding of `main` of `sp_transform_trades.py` (lines 77–169): build
the enriched batch, count it, append to the sink only when the count is
positive, and return the status string. -/
def transformMain (now : ℕ) (stream : List TradeRow)
    (positions : List PositionRow) (sink : List EnrichedRow) :
    List EnrichedRow × String :=
  let enriched := joinEnrich now stream (latest_positions positions)
  let row_count := enriched.length
  (if 0 < row_count then sink ++ enriched else sink, mkStatus row_count)

/-- Sample trade used to exercise the pipeline model. -/
def exTrade : TradeRow :=
  ⟨"TRD-0001", "AAPL", "SELL", 100, 185, 0, "ACCT-001", "NYSE", "TRD-A1",
    "ORD-0001"⟩

/-- Older position snapshot for (ACCT-001, AAPL). -/
def exPosOld : PositionRow :=
  ⟨"ACCT-001", "AAPL", 100, some 180, 1⟩

/-- Newer position snapshot for the same (ACCT-001, AAPL) key with a
different quantity and cost. -/
def exPosNew : PositionRow :=
  ⟨"ACCT-001", "AAPL", 50, some 182, 2⟩

/-- C5: with two position snapshots for the same (account, instrument) key
differing in quantity, the `.distinct()` projection keeps both rows — it
never reads the as-of timestamp — so the key has two surviving rows and a
single polled trade joins against both, contradicting the
one-row-per-key / latest-as-of lookup that both the spec and the code's
own comment ("Get the latest position per account/symbol") describe. -/
theorem C5_duplicate_key_rows :
    ((latest_positions [exPosOld, exPosNew]).filter fun p =>
        p.account_id == "ACCT-001" && p.symbol == "AAPL").length = 2
      ∧ (joinEnrich 0 [exTrade] (latest_positions [exPosOld, exPosNew])).length
          = 2 := by
  decide

/-- C7 counterexample: one polled trade joined against two surviving
position rows yields a status string reporting 2 rows processed, not the
polled batch size 1 — the count in the status is the joined row count. -/
theorem C7_counterexample :
    ([exTrade].length = 1)
      ∧ (transformMain 0 [exTrade] [exPosOld, exPosNew] []).2 ≠ mkStatus 1 := by
  constructor
  · rfl
  · decide

/-- C7 (amended): when the polled stream is empty, `main` leaves the sink
unchanged and returns the status "TRADES_ENRICHED: 0 rows processed"; in
general the returned string reports the number of rows of the joined
(enriched) batch, which equals the polled count whenever each trade joins
at most one deduplicated position row. -/
theorem C7_empty_stream (now : ℕ) (stream : List TradeRow)
    (positions : List PositionRow) (sink : List EnrichedRow) :
    (stream = [] →
      transformMain now stream positions sink = (sink, mkStatus 0))
      ∧ (transformMain now stream positions sink).2
          = mkStatus (joinEnrich now stream (latest_positions positions)).length := by
  constructor
  · rintro rfl
    rfl
  · rfl

theorem C7_empty_stream_witness :
    transformMain 0 [] [exPosOld] [] = ([], mkStatus 0) :=
  (C7_empty_stream 0 [] [exPosOld] []).1 rfl

/-!
Aggregation View model: `main` of `sp_enrich_trades.py`. It groups the
position table by SYMBOL (average CURRENT_PRICE, summed QUANTITY, summed
MARKET_VALUE), left-joins the aggregate onto every trade row on SYMBOL,
and writes the result with mode "overwrite", replacing the output table.
-/

/-- Row of `DEMO_LAB_DB.RAW.TRADES_RAW` (the columns the enrichment
selects). -/
structure TradeRowE where
  trade_id : String
  account_id : String
  symbol : String
  trade_ts : ℕ
  side : String
  quantity : ℚ
  price : ℚ
  amount : ℚ
  exchange : String
  status : String
  deriving DecidableEq, Repr

/-- Row of `DEMO_LAB_DB.RAW.POSITIONS_RAW` (the columns the aggregation
reads, plus the account as carried payload). -/
structure PositionRowE where
  account_id : String
  symbol : String
  current_price : ℚ
  quantity : ℚ
  market_value : ℚ
  deriving DecidableEq, Repr

/-- Row of the `positions_agg` dataframe (lines 16–24). -/
structure AggRow where
  symbol : String
  avg_market_price : ℚ
  total_position_qty : ℚ
  total_market_value : ℚ
  deriving DecidableEq, Repr

/-- Aggregate of all position rows of one symbol: SQL AVG is the sum
divided by the group size, SUM is the sum. -/
def aggForSymbol (positions : List PositionRowE) (s : String) : AggRow :=
  let rows := positions.filter fun p => p.symbol == s
  { symbol := s
    avg_market_price := (rows.map PositionRowE.current_price).sum / rows.length
    total_position_qty := (rows.map PositionRowE.quantity).sum
    total_market_value := (rows.map PositionRowE.market_value).sum }

/-- Embedding of `positions_agg` (lines 16–24): `group_by("SYMBOL")`
produces one aggregate row per distinct symbol of the position table. -/
def positions_agg (positions : List PositionRowE) : List AggRow :=
  ((positions.map PositionRowE.symbol).dedup).map (aggForSymbol positions)

/-- Row of `DEMO_LAB_DB.STAGE.TRADES_ENRICHED` as selected on lines
30–44: all trade columns plus the three nullable aggregate columns. -/
structure EnrichedRowE where
  trade_id : String
  account_id : String
  symbol : String
  trade_ts : ℕ
  side : String
  quantity : ℚ
  price : ℚ
  amount : ℚ
  exchange : String
  status : String
  avg_market_price : Option ℚ
  total_position_qty : Option ℚ
  total_market_value : Option ℚ
  deriving DecidableEq, Repr

/-- Assembly of one output row from a trade and the (possibly absent)
aggregate row delivered by the left join. -/
def enrichWith (t : TradeRowE) (a : Option AggRow) : EnrichedRowE :=
  { trade_id := t.trade_id
    account_id := t.account_id
    symbol := t.symbol
    trade_ts := t.trade_ts
    side := t.side
    quantity := t.quantity
    price := t.price
    amount := t.amount
    exchange := t.exchange
    status := t.status
    avg_market_price := a.map AggRow.avg_market_price
    total_position_qty := a.map AggRow.total_position_qty
    total_market_value := a.map AggRow.total_market_value }

/-- Embedding of the left join on SYMBOL (line 29): each trade row is
paired with every matching aggregate row, or with NULL aggregate columns
when none matches. -/
def leftJoinAgg : List TradeRowE → List AggRow → List EnrichedRowE
  | [], _ => []
  | t :: ts, agg =>
    (let ms := agg.filter fun a => a.symbol == t.symbol
     if ms.isEmpty then [enrichWith t none]
     else ms.map fun a => enrichWith t (some a))
      ++ leftJoinAgg ts agg

/-- Embedding of `main` of `sp_enrich_trades.py`: the overwrite write
replaces the previous content of the output table, so the result does not
depend on it. -/
def enrichMain (trades : List TradeRowE) (positions : List PositionRowE)
    (_prior : List EnrichedRowE) : List EnrichedRowE :=
  leftJoinAgg trades (positions_agg positions)

/-- Filtering a list of aggregate rows built over distinct symbols by one
symbol returns exactly the aggregate of that symbol, or nothing. -/
theorem filter_map_aggForSymbol (positions : List PositionRowE)
    (l : List String) (s : String) (hnd : l.Nodup) :
    (l.map (aggForSymbol positions)).filter (fun a => a.symbol == s)
      = if s ∈ l then [aggForSymbol positions s] else [] := by
  induction l with
  | nil => simp
  | cons x xs ih =>
    rcases List.nodup_cons.mp hnd with ⟨hx, hxs⟩
    rw [List.map_cons]
    by_cases hxe : x = s
    · subst hxe
      have hrest := ih hxs
      rw [if_neg hx] at hrest
      rw [List.filter_cons_of_pos (by simp [aggForSymbol]), hrest,
        if_pos (List.mem_cons_self x xs)]
    · rw [List.filter_cons_of_neg (by simp [aggForSymbol, hxe]), ih hxs]
      have hmem : (s ∈ x :: xs) ↔ s ∈ xs := by
        rw [List.mem_cons]
        exact or_iff_right fun h => hxe h.symm
      rw [if_congr hmem rfl rfl]

/-- Membership of a symbol among the position table's symbols is the
nonemptiness of that symbol's group. -/
theorem mem_symbols_iff (positions : List PositionRowE) (s : String) :
    s ∈ (positions.map PositionRowE.symbol).dedup
      ↔ ((positions.filter fun p => p.symbol == s).isEmpty = false) := by
  rw [List.mem_dedup, List.mem_map]
  constructor
  · rintro ⟨p, hp, rfl⟩
    have : p ∈ positions.filter fun q => q.symbol == p.symbol := by
      simp [List.mem_filter, hp]
    cases hf : (positions.filter fun q => q.symbol == p.symbol) with
    | nil => rw [hf] at this; cases this
    | cons a l => simp [hf]
  · intro h
    cases hf : (positions.filter fun p => p.symbol == s) with
    | nil => rw [hf] at h; cases h
    | cons p l =>
      have hp : p ∈ positions.filter fun p => p.symbol == s := by
        rw [hf]; exact List.mem_cons_self p l
      rcases List.mem_filter.mp hp with ⟨hmem, heq⟩
      exact ⟨p, hmem, by simpa using heq⟩

/-- C8: the Aggregation View rebuild produces, for every trade row in
order, exactly one output row carrying that trade's columns together with
the mean of current_price and the sums of quantity and market_value over
the position rows of the trade's instrument, or NULL aggregate columns
when the instrument has no position rows; the previous content of the
output table does not influence the result (overwrite). -/
theorem C8_rebuild (trades : List TradeRowE) (positions : List PositionRowE)
    (prior : List EnrichedRowE) :
    enrichMain trades positions prior = trades.map (fun t =>
      if (positions.filter fun p => p.symbol == t.symbol).isEmpty
      then enrichWith t none
      else enrichWith t (some (aggForSymbol positions t.symbol))) := by
  induction trades with
  | nil => rfl
  | cons t ts ih =>
    simp only [enrichMain, leftJoinAgg, positions_agg] at ih ⊢
    rw [List.map_cons,
      filter_map_aggForSymbol positions _ t.symbol (List.nodup_dedup _)]
    cases hE : (positions.filter fun p => p.symbol == t.symbol).isEmpty with
    | false =>
      have hmem := (mem_symbols_iff positions t.symbol).mpr hE
      rw [if_pos hmem]
      simp only [List.isEmpty_cons, Bool.false_eq_true, if_false,
        List.map_cons, List.map_nil, List.singleton_append]
      exact congrArg _ ih
    | true =>
      have hmem : t.symbol ∉ (positions.map PositionRowE.symbol).dedup := by
        intro hc
        rw [(mem_symbols_iff positions t.symbol).mp hc] at hE
        cases hE
      rw [if_neg hmem]
      simp only [List.isEmpty_nil, if_true, List.singleton_append]
      exact congrArg _ ih

end TradingLab
